import Mathlib

/-!
Verification of the command execution and notification pipeline of the
salesforcedx-vscode repository.

The development embeds three pieces of the repository:

1. The commandlet executor (`LibraryCommandletExecutor.execute`): the repository
   carries only its unit tests, so the executor itself is modelled from the
   specification of its contract (steps 1-7 of the `execute` contract), as a
   function from one invocation's inputs to the ordered list of observable side
   effects (channel writes, notifications, progress UI, telemetry) plus the
   returned or re-thrown outcome.

2. The process-exit handler of `ForceSandboxCloneExecutor.execute`
   (forceSandboxClone.ts, lines 85-114), embedded from the source; the
   `OrgCreateResultParser` it calls lives outside the packaged sources and is
   modelled from the specification of result classification.

3. `AliasGatherer.gather` (forceSandboxClone.ts, lines 126-211), embedded from
   the source, with the user-input prompts and the workspace state supplied as
   an environment of optional answers.
-/

/-! ### Localization (modelled) -/

/-- Modelled from the spec: display strings are resolved through a localization
lookup keyed by stable message identifiers; the exact wording is not part of the
contract, but the identifiers and the substitution arguments are.  A no-argument
message is therefore modelled as its own key. -/
def localize (key : String) : String := key

/-- Modelled from the spec: a one-argument localized message is modelled as its
key followed by its substitution argument, so that the rendered text provably
contains the argument. -/
def localize1 (key arg : String) : String := key ++ " " ++ arg

/-- The needle occurs as a contiguous substring of the haystack. -/
def containsStr (hay needle : String) : Prop := needle.data <:+: hay.data

/-! ### The commandlet executor, modelled from the spec -/

/-- Per-instance configuration of the executor: the command descriptor
(display name, log name) and the `cancellable` opt-in flag set by a subclass
before execution. -/
structure ExecutorConfig where
  displayName : String
  logName : String
  cancellable : Bool

/-- How the subclass-supplied unit of work `run` terminates: logical success
(resolves true), logical failure (resolves false), or a thrown error carrying a
message. -/
inductive RunOutcome where
  | success
  | failure
  | thrown (msg : String)
deriving DecidableEq

/-- The inputs of one invocation of `execute`: the value the clear-output-on-run
configuration option reads at this invocation (read fresh, so it is
per-invocation data), the unit of work's outcome, whether the cancellation
token fired during the run, and the value of the instance's `cancelled` flag
when the invocation starts (normally false; the instance is reusable, so the
flag may already be set). -/
structure RunInput where
  clearOnRun : Bool
  outcome : RunOutcome
  cancelFired : Bool
  cancelled0 : Bool
deriving DecidableEq

/-- One observable side effect of an invocation, in the order the executor
performs them: channel clear and appends, success / failure / cancellation
notifications, the progress surface invocation (with its options), and the two
telemetry events. -/
inductive Effect where
  | channelClear
  | channelAppend (line : String)
  | notifySuccess (msg : String)
  | notifyFailure (msg : String)
  | notifyCancelWarning (msg : String)
  | progressShow (cancellable : Bool) (title : String)
  | telemetryCommand (logName : String)
  | telemetryException (logName : String) (errMsg : String)
deriving DecidableEq

/-- The `cancelled` flag read at completion time: its initial value, or set by
the cancellation listener (registered only when `cancellable` is set) when the
token fired. -/
def cancelledAtEnd (cfg : ExecutorConfig) (inp : RunInput) : Bool :=
  inp.cancelled0 || (cfg.cancellable && inp.cancelFired)

/-- Modelled from the spec: the effects of an invocation of
`LibraryCommandletExecutor.execute` that precede the unit of work's completion.
Step 2: if the configuration option reads true, clear the channel sink before
writing anything.  Step 4: if `cancellable` is set, wrap the run in a
cancellable progress surface titled with the localized progress text applied to
the display name; the registered listener issues one cancellation warning with
the display name when the token fires. -/
def preRunFx (cfg : ExecutorConfig) (inp : RunInput) : List Effect :=
  (if inp.clearOnRun then [Effect.channelClear] else []) ++
  (if cfg.cancellable then
    [Effect.progressShow true (localize1 "progress_notification_text" cfg.displayName)]
   else []) ++
  (if cfg.cancellable && inp.cancelFired then
    [Effect.notifyCancelWarning (localize1 "notification_canceled_execution_text" cfg.displayName)]
   else [])

/-- Modelled from the spec: the effects of an invocation of
`LibraryCommandletExecutor.execute` after the unit of work terminates.
Step 5, normal completion: with `cancelled` true suppress success and failure
notifications; otherwise show the success or failure notification matching the
result; in all cases log one command telemetry event.  Step 6, thrown error:
append the error's message to the channel preceded by an empty separating line,
show a failure notification with the fixed message (display name followed by
" failed to run"), and record an exception telemetry event. -/
def completionFx (cfg : ExecutorConfig) (inp : RunInput) : List Effect :=
  match inp.outcome with
  | RunOutcome.thrown msg =>
    [Effect.channelAppend "", Effect.channelAppend msg,
     Effect.notifyFailure (cfg.displayName ++ " failed to run"),
     Effect.telemetryException cfg.logName msg]
  | RunOutcome.success =>
    (if cancelledAtEnd cfg inp then []
     else [Effect.notifySuccess (localize1 "notification_successful_execution_text" cfg.displayName)]) ++
    [Effect.telemetryCommand cfg.logName]
  | RunOutcome.failure =>
    (if cancelledAtEnd cfg inp then []
     else [Effect.notifyFailure (localize1 "notification_unsuccessful_execution_text" cfg.displayName)]) ++
    [Effect.telemetryCommand cfg.logName]

/-- Modelled from the spec: `LibraryCommandletExecutor.execute` (the executor's
implementation is not among the packaged sources; only its unit tests are).
One invocation yields the ordered trace of its observable side effects together
with its outcome: step 6 re-throws a thrown error after the side effects, so the
caller awaiting `execute` observes it; otherwise `execute` resolves normally. -/
def execute (cfg : ExecutorConfig) (inp : RunInput) : List Effect × Except String Unit :=
  (preRunFx cfg inp ++ completionFx cfg inp,
   match inp.outcome with
   | RunOutcome.thrown msg => Except.error msg
   | _ => Except.ok ())

/-- A sequence of consecutive invocations of `execute` on one executor instance:
the configuration option is read fresh at each invocation, so each element of
the input list carries the value it reads; the result is the per-invocation
trace list. -/
def executeRuns (cfg : ExecutorConfig) (inps : List RunInput) : List (List Effect) :=
  inps.map (fun inp => (execute cfg inp).1)

/-- Is this effect a success notification? -/
def isSuccessNotify : Effect → Bool
  | Effect.notifySuccess _ => true
  | _ => false

/-- Is this effect a failure notification? -/
def isFailureNotify : Effect → Bool
  | Effect.notifyFailure _ => true
  | _ => false

/-- Is this effect a success or failure notification? -/
def isNotifyFx (e : Effect) : Bool := isSuccessNotify e || isFailureNotify e

/-- Is this effect a command-duration telemetry event? -/
def isTelemetryCommand : Effect → Bool
  | Effect.telemetryCommand _ => true
  | _ => false

/-- Is this effect an exception telemetry event? -/
def isTelemetryException : Effect → Bool
  | Effect.telemetryException _ _ => true
  | _ => false

/-- Is this effect a telemetry event of either kind? -/
def isTelemetryFx (e : Effect) : Bool := isTelemetryCommand e || isTelemetryException e

/-- Is this effect a cancellation warning? -/
def isCancelWarnFx : Effect → Bool
  | Effect.notifyCancelWarning _ => true
  | _ => false

/-- Is this effect a channel append? -/
def isAppendFx : Effect → Bool
  | Effect.channelAppend _ => true
  | _ => false

/-- The number of effects of a trace satisfying the predicate. -/
def countFx (p : Effect → Bool) (tr : List Effect) : Nat := (tr.filter p).length

/-! ### Process-output classification of the worked-example command -/

/-- Modelled from the spec: the structural record that the buffered standard
output of the completed process parses into.  It carries the nested status
field, and, when present, the error object extracted under the known key, whose
message is the reported error text. -/
structure OrgCreateResult where
  status : Int
  errorMessage : Option String
deriving DecidableEq

/-- Modelled from the spec: the buffered standard-output text of the completed
process, as the parser sees it — either malformed text, on which the parser
throws an error carrying the given text, or text parsing into one structural
record. -/
inductive StdOut where
  | malformed (parseErr : String)
  | parsed (r : OrgCreateResult)
deriving DecidableEq

/-- Modelled from the spec: `OrgCreateResultParser.createIsSuccessful` — the
result is classified as successful exactly when the nested status field
equals 0. -/
def createIsSuccessful (r : OrgCreateResult) : Bool := r.status == 0

/-- One observable side effect of the process-exit handler of
`ForceSandboxCloneExecutor.execute`: the command metric, channel appends, the
exception telemetry event, and setting the workspace org type on success. -/
inductive CloneEffect where
  | logMetricFx (logName : String)
  | appendLineFx (line : String)
  | sendExceptionFx (name msg : String)
  | setOrgTypeSourceTracked
deriving DecidableEq

/-- The process-exit handler of `ForceSandboxCloneExecutor.execute`
(forceSandboxClone.ts lines 85-114), embedded from the source over the modelled
parser: log the command metric; then parse the buffered output — on success set
the workspace org type; on a failed classification append the extracted error
message to the channel and send it as an exception telemetry event; when the
parser throws, append the dedicated localized parsing-error message and the raw
error to the channel and send an exception telemetry event carrying the raw
error. -/
def processExitHandler (stdOut : StdOut) : List CloneEffect :=
  CloneEffect.logMetricFx "force_org_clone_sandbox_org" ::
  (match stdOut with
   | StdOut.malformed err =>
     [CloneEffect.appendLineFx (localize "force_org_clone_result_parsing_error"),
      CloneEffect.appendLineFx err,
      CloneEffect.sendExceptionFx "force_org_clone"
        ("Error while parsing org create response " ++ err)]
   | StdOut.parsed r =>
     if createIsSuccessful r then
       [CloneEffect.setOrgTypeSourceTracked]
     else
       match r.errorMessage with
       | some m =>
         [CloneEffect.appendLineFx m,
          CloneEffect.sendExceptionFx "force_org_clone" m]
       | none => [])

/-! ### The alias gatherer -/

/-- forceSandboxClone.ts line 47. -/
def DEFAULT_ALIAS : String := "vscodeSandbox"

/-- forceSandboxClone.ts line 48. -/
def DEFAULT_WAIT_TIME_MINS : String := "30"

/-- Modelled from the spec: the helper `isAlphaNumSpaceString` imported from
the utilities package (not among the packaged sources).  Following its name and
its use beside an explicit empty-string check in the input validators, it holds
exactly for nonempty strings made of ASCII letters, digits and spaces. -/
def isAlphaNumSpaceString (s : String) : Bool :=
  !s.isEmpty && s.data.all (fun c => c.isAlphanum || c = ' ')

/-- The folder-name cleanup of forceSandboxClone.ts lines 130-133: replace
every non-word character (anything but an ASCII letter, digit or underscore)
with the empty string. -/
def stripNonWord (s : String) : String :=
  ⟨s.data.filter (fun c => c.isAlphanum || c = '_')⟩

/-- The environment one `AliasGatherer.gather` call runs in: the root workspace
name when a root workspace exists, and the answer of each of the four input
prompts in order — `none` when the prompt is dismissed. -/
structure GatherEnv where
  rootWorkspaceName : Option String
  cloneSourceInput : Option String
  sandboxNameInput : Option String
  aliasInput : Option String
  waitTimeInput : Option String
deriving DecidableEq

/-- The default alias computed at the start of `gather` (forceSandboxClone.ts
lines 128-137): with a root workspace whose cleaned folder name is an
alphanumeric-or-space string, that cleaned name; otherwise `DEFAULT_ALIAS`. -/
def defaultAliasOf (env : GatherEnv) : String :=
  match env.rootWorkspaceName with
  | none => DEFAULT_ALIAS
  | some n =>
    let folderName := stripNonWord n
    if isAlphaNumSpaceString folderName then folderName else DEFAULT_ALIAS

/-- The continuation payload of `AliasGatherer.gather` (the `Alias` interface of
forceSandboxClone.ts lines 213-218; the `alias` field is named `aliasName`
here). -/
structure AliasData where
  aliasName : String
  waitTime : String
  sourceSandbox : String
  sandboxName : String
deriving DecidableEq

/-- The result of a gathering step: the cancellation variant or the
continuation variant with its payload. -/
inductive GatherResult where
  | cancel
  | cont (data : AliasData)
deriving DecidableEq

/-- `AliasGatherer.gather` (forceSandboxClone.ts lines 126-211), embedded from
the source: prompt for the clone source, the sandbox name, the alias and the
wait time in order, returning the cancellation variant as soon as a prompt is
dismissed; otherwise return the continuation payload, substituting the computed
default alias for an empty alias and the default wait time for an empty wait
time, and passing the clone source and sandbox name through unchanged. -/
def gather (env : GatherEnv) : GatherResult :=
  let defaultWaitTime := DEFAULT_WAIT_TIME_MINS
  let defaultAlias := defaultAliasOf env
  match env.cloneSourceInput with
  | none => GatherResult.cancel
  | some cloneSource =>
    match env.sandboxNameInput with
    | none => GatherResult.cancel
    | some sandboxName =>
      match env.aliasInput with
      | none => GatherResult.cancel
      | some alias0 =>
        match env.waitTimeInput with
        | none => GatherResult.cancel
        | some waitIn =>
          GatherResult.cont
            { aliasName := if alias0 = "" then defaultAlias else alias0
              waitTime := if waitIn = "" then defaultWaitTime else waitIn
              sourceSandbox := cloneSource
              sandboxName := sandboxName }

/-! ### Concrete sample inputs, mirroring the unit tests -/

/-- The test executor's descriptor: display name of the test command, its log
name, and the cancellable flag left false. -/
def cfgTest : ExecutorConfig := ⟨"Test Command", "test_command", false⟩

/-- The test executor's descriptor with the cancellable flag set. -/
def cfgTestCancellable : ExecutorConfig := ⟨"Test Command", "test_command", true⟩

/-- An invocation whose unit of work throws. -/
def inpThrown : RunInput := ⟨false, RunOutcome.thrown "Issues!", false, false⟩

/-- An invocation whose unit of work resolves true. -/
def inpSuccess : RunInput := ⟨false, RunOutcome.success, false, false⟩

/-- An invocation whose unit of work resolves false, with the clear-output
option reading true. -/
def inpFailure : RunInput := ⟨true, RunOutcome.failure, false, false⟩

/-- An invocation starting with the cancelled flag already true. -/
def inpCancelled : RunInput := ⟨false, RunOutcome.success, false, true⟩

/-- An invocation during which the cancellation token fires. -/
def inpCancelFired : RunInput := ⟨false, RunOutcome.success, true, false⟩

/-- Two consecutive invocations whose clear-output option reads true and then
false. -/
def runsTest : List RunInput := [inpFailure, inpSuccess]

/-- A gather environment with a root workspace named Foo and every prompt
answered with the empty string. -/
def envFoo : GatherEnv := ⟨some "Foo", some "", some "", some "", some ""⟩

/-- A gather environment with no root workspace, concrete source and sandbox
names, and empty alias and wait-time answers. -/
def envNoWs : GatherEnv := ⟨none, some "mySrc", some "sb1", some "", some ""⟩

/-- A parsed result with a nonzero status and an error object carrying a
message. -/
def sampleErrResult : OrgCreateResult := ⟨1, some "clone went wrong"⟩

/-! ### Helper lemmas about the executor's traces -/

theorem preRunFx_mem_cases {cfg : ExecutorConfig} {inp : RunInput} {e : Effect}
    (he : e ∈ preRunFx cfg inp) :
    e = Effect.channelClear ∨
    e = Effect.progressShow true (localize1 "progress_notification_text" cfg.displayName) ∨
    e = Effect.notifyCancelWarning (localize1 "notification_canceled_execution_text" cfg.displayName) := by
  unfold preRunFx at he
  rcases List.mem_append.mp he with h | h
  · rcases List.mem_append.mp h with h1 | h1
    · left; split at h1 <;> simp_all
    · right; left; split at h1 <;> simp_all
  · right; right; split at h <;> simp_all

theorem preRunFx_filter_eq_nil (cfg : ExecutorConfig) (inp : RunInput) (p : Effect → Bool)
    (h1 : p Effect.channelClear = false)
    (h2 : ∀ b t, p (Effect.progressShow b t) = false)
    (h3 : ∀ m, p (Effect.notifyCancelWarning m) = false) :
    (preRunFx cfg inp).filter p = [] := by
  rw [List.filter_eq_nil_iff]
  intro e he
  rcases preRunFx_mem_cases he with h | h | h <;> subst h <;> simp [h1, h2, h3]

theorem completionFx_mem_cases {cfg : ExecutorConfig} {inp : RunInput} {e : Effect}
    (he : e ∈ completionFx cfg inp) :
    (∃ s, e = Effect.channelAppend s) ∨ (∃ s, e = Effect.notifySuccess s) ∨
    (∃ s, e = Effect.notifyFailure s) ∨ (∃ s, e = Effect.telemetryCommand s) ∨
    (∃ a b, e = Effect.telemetryException a b) := by
  unfold completionFx at he
  rcases ho : inp.outcome with _ | _ | m <;> rw [ho] at he
  · rcases List.mem_append.mp he with h | h
    · split at h <;> simp_all
    · simp_all
  · rcases List.mem_append.mp he with h | h
    · split at h <;> simp_all
    · simp_all
  · simp at he
    rcases he with h | h | h | h <;> simp_all

theorem completionFx_filter_eq_nil (cfg : ExecutorConfig) (inp : RunInput) (p : Effect → Bool)
    (h1 : ∀ s, p (Effect.channelAppend s) = false)
    (h2 : ∀ s, p (Effect.notifySuccess s) = false)
    (h3 : ∀ s, p (Effect.notifyFailure s) = false)
    (h4 : ∀ s, p (Effect.telemetryCommand s) = false)
    (h5 : ∀ a b, p (Effect.telemetryException a b) = false) :
    (completionFx cfg inp).filter p = [] := by
  rw [List.filter_eq_nil_iff]
  intro e he
  rcases completionFx_mem_cases he with ⟨s, h⟩ | ⟨s, h⟩ | ⟨s, h⟩ | ⟨s, h⟩ | ⟨a, b, h⟩ <;>
    subst h <;> simp [h1, h2, h3, h4, h5]

theorem completionFx_split (cfg : ExecutorConfig) (inp : RunInput) :
    ∃ nfx tfx, completionFx cfg inp = nfx ++ [tfx] ∧
      (∀ e ∈ nfx, isTelemetryFx e = false) ∧
      isTelemetryFx tfx = true ∧ isNotifyFx tfx = false := by
  unfold completionFx
  rcases ho : inp.outcome with _ | _ | m
  · refine ⟨if cancelledAtEnd cfg inp then []
      else [Effect.notifySuccess (localize1 "notification_successful_execution_text" cfg.displayName)],
      Effect.telemetryCommand cfg.logName, rfl, ?_, rfl, rfl⟩
    intro e he
    split at he <;> simp_all [isTelemetryFx, isTelemetryCommand, isTelemetryException]
  · refine ⟨if cancelledAtEnd cfg inp then []
      else [Effect.notifyFailure (localize1 "notification_unsuccessful_execution_text" cfg.displayName)],
      Effect.telemetryCommand cfg.logName, rfl, ?_, rfl, rfl⟩
    intro e he
    split at he <;> simp_all [isTelemetryFx, isTelemetryCommand, isTelemetryException]
  · refine ⟨[Effect.channelAppend "", Effect.channelAppend m,
      Effect.notifyFailure (cfg.displayName ++ " failed to run")],
      Effect.telemetryException cfg.logName m, rfl, ?_, rfl, rfl⟩
    intro e he
    simp at he
    rcases he with h | h | h <;> subst h <;> rfl

theorem channelClear_not_mem_preRunFx {cfg : ExecutorConfig} {inp : RunInput}
    (h : inp.clearOnRun = false) :
    Effect.channelClear ∉ preRunFx cfg inp := by
  intro hm
  simp only [preRunFx, h, if_false, List.nil_append, List.mem_append] at hm
  rcases hm with h1 | h1 <;> (split at h1 <;> simp_all)

theorem channelClear_not_mem_completionFx (cfg : ExecutorConfig) (inp : RunInput) :
    Effect.channelClear ∉ completionFx cfg inp := by
  intro hm
  rcases completionFx_mem_cases hm with ⟨s, h⟩ | ⟨s, h⟩ | ⟨s, h⟩ | ⟨s, h⟩ | ⟨a, b, h⟩ <;>
    simp at h

theorem preRunFx_of_clear {cfg : ExecutorConfig} {inp : RunInput}
    (h : inp.clearOnRun = true) :
    ∃ rest, preRunFx cfg inp = Effect.channelClear :: rest := by
  refine ⟨(if cfg.cancellable then
      [Effect.progressShow true (localize1 "progress_notification_text" cfg.displayName)] else []) ++
    (if cfg.cancellable && inp.cancelFired then
      [Effect.notifyCancelWarning (localize1 "notification_canceled_execution_text" cfg.displayName)] else []),
    ?_⟩
  simp [preRunFx, h]

/-! ### Claim theorems for the commandlet executor -/

/-- C1: for every run of the executor in which the unit of work throws an
error, the channel sink receives an appended line containing the error's
message preceded by an empty separating line, a failure notification with
exactly the fixed message (the display name followed by " failed to run") is
shown, an exception telemetry event is recorded, and the same error is
re-thrown so the caller awaiting execute observes it. -/
theorem execute_run_throws_reports_and_rethrows
    (cfg : ExecutorConfig) (inp : RunInput) (m : String)
    (ht : inp.outcome = RunOutcome.thrown m) :
    [Effect.channelAppend "", Effect.channelAppend m] <:+: (execute cfg inp).1 ∧
    Effect.notifyFailure (cfg.displayName ++ " failed to run") ∈ (execute cfg inp).1 ∧
    Effect.telemetryException cfg.logName m ∈ (execute cfg inp).1 ∧
    (execute cfg inp).2 = Except.error m := by
  refine ⟨?_, ?_, ?_, ?_⟩
  · refine ⟨preRunFx cfg inp,
      [Effect.notifyFailure (cfg.displayName ++ " failed to run"),
       Effect.telemetryException cfg.logName m], ?_⟩
    simp [execute, completionFx, ht]
  · simp [execute, completionFx, ht]
  · simp [execute, completionFx, ht]
  · simp [execute, ht]

/-- Witness for C1: the run that throws an error with the message Issues!
observes all four reported effects and the re-thrown error. -/
theorem execute_run_throws_reports_and_rethrows_witness :
    [Effect.channelAppend "", Effect.channelAppend "Issues!"] <:+: (execute cfgTest inpThrown).1 ∧
    Effect.notifyFailure (cfgTest.displayName ++ " failed to run") ∈ (execute cfgTest inpThrown).1 ∧
    Effect.telemetryException cfgTest.logName "Issues!" ∈ (execute cfgTest inpThrown).1 ∧
    (execute cfgTest inpThrown).2 = Except.error "Issues!" :=
  execute_run_throws_reports_and_rethrows cfgTest inpThrown "Issues!" rfl

/-- C2: for every run of the executor that completes normally (the unit of work
resolves rather than throws) with the cancelled flag true at completion time,
no success notification and no failure notification is shown, and the command
telemetry event is still recorded exactly once. -/
theorem execute_cancelled_suppresses_notifications
    (cfg : ExecutorConfig) (inp : RunInput)
    (hc : cancelledAtEnd cfg inp = true)
    (hn : inp.outcome = RunOutcome.success ∨ inp.outcome = RunOutcome.failure) :
    countFx isNotifyFx (execute cfg inp).1 = 0 ∧
    countFx isTelemetryCommand (execute cfg inp).1 = 1 := by
  have hpre1 : (preRunFx cfg inp).filter isNotifyFx = [] :=
    preRunFx_filter_eq_nil cfg inp isNotifyFx rfl (fun _ _ => rfl) (fun _ => rfl)
  have hpre2 : (preRunFx cfg inp).filter isTelemetryCommand = [] :=
    preRunFx_filter_eq_nil cfg inp isTelemetryCommand rfl (fun _ _ => rfl) (fun _ => rfl)
  rcases hn with h | h <;>
    simp [execute, completionFx, h, hc, countFx, List.filter_append, hpre1, hpre2,
      isNotifyFx, isSuccessNotify, isFailureNotify, isTelemetryCommand]

/-- Witness for C2: a normally completing run starting with the cancelled flag
set shows no notification and records one command telemetry event. -/
theorem execute_cancelled_suppresses_notifications_witness :
    countFx isNotifyFx (execute cfgTest inpCancelled).1 = 0 ∧
    countFx isTelemetryCommand (execute cfgTest inpCancelled).1 = 1 :=
  execute_cancelled_suppresses_notifications cfgTest inpCancelled rfl (Or.inl rfl)

/-- C3: for every single invocation of the executor, every success or failure
notification precedes every telemetry event in the trace, and exactly one
telemetry event occurs — the command-duration event on normal completion or the
exception event on the thrown-error path, never both and never neither. -/
theorem execute_notifications_before_single_telemetry
    (cfg : ExecutorConfig) (inp : RunInput) :
    ∃ pre post, (execute cfg inp).1 = pre ++ post ∧
      (∀ e ∈ pre, isTelemetryFx e = false) ∧
      (∀ e ∈ post, isNotifyFx e = false) ∧
      countFx isTelemetryFx (execute cfg inp).1 = 1 := by
  obtain ⟨nfx, tfx, hsplit, hn, ht, htn⟩ := completionFx_split cfg inp
  have hn' : nfx.filter isTelemetryFx = [] :=
    List.filter_eq_nil_iff.mpr (fun a ha => by simp [hn a ha])
  have hpre : (preRunFx cfg inp).filter isTelemetryFx = [] :=
    preRunFx_filter_eq_nil cfg inp isTelemetryFx rfl (fun _ _ => rfl) (fun _ => rfl)
  refine ⟨preRunFx cfg inp ++ nfx, [tfx], ?_, ?_, ?_, ?_⟩
  · simp [execute, hsplit]
  · intro e he
    rcases List.mem_append.mp he with h | h
    · rcases preRunFx_mem_cases h with h' | h' | h' <;> subst h' <;> rfl
    · exact hn e h
  · intro e he
    simp at he
    subst he
    exact htn
  · simp [execute, hsplit, countFx, List.filter_append, hpre, hn', ht]

/-- C4: for every run of the executor in which the unit of work resolves true
and the cancelled flag is false at completion, exactly one success notification
is shown and exactly one command-duration telemetry event is recorded. -/
theorem execute_success_notifies_once
    (cfg : ExecutorConfig) (inp : RunInput)
    (hs : inp.outcome = RunOutcome.success)
    (hc : cancelledAtEnd cfg inp = false) :
    countFx isSuccessNotify (execute cfg inp).1 = 1 ∧
    countFx isTelemetryCommand (execute cfg inp).1 = 1 := by
  have hpre1 : (preRunFx cfg inp).filter isSuccessNotify = [] :=
    preRunFx_filter_eq_nil cfg inp isSuccessNotify rfl (fun _ _ => rfl) (fun _ => rfl)
  have hpre2 : (preRunFx cfg inp).filter isTelemetryCommand = [] :=
    preRunFx_filter_eq_nil cfg inp isTelemetryCommand rfl (fun _ _ => rfl) (fun _ => rfl)
  simp [execute, completionFx, hs, hc, countFx, List.filter_append, hpre1, hpre2,
    isSuccessNotify, isTelemetryCommand]

/-- Witness for C4: the run resolving true with nothing cancelled shows one
success notification and records one command telemetry event. -/
theorem execute_success_notifies_once_witness :
    countFx isSuccessNotify (execute cfgTest inpSuccess).1 = 1 ∧
    countFx isTelemetryCommand (execute cfgTest inpSuccess).1 = 1 :=
  execute_success_notifies_once cfgTest inpSuccess rfl rfl

/-- C5: for every run of the executor in which the unit of work resolves false
and the cancelled flag is false, exactly one failure notification is shown, no
line is appended to the channel sink, and exactly one telemetry event is
recorded. -/
theorem execute_failure_notifies_once_no_append
    (cfg : ExecutorConfig) (inp : RunInput)
    (hf : inp.outcome = RunOutcome.failure)
    (hc : cancelledAtEnd cfg inp = false) :
    countFx isFailureNotify (execute cfg inp).1 = 1 ∧
    countFx isAppendFx (execute cfg inp).1 = 0 ∧
    countFx isTelemetryFx (execute cfg inp).1 = 1 := by
  have hpre1 : (preRunFx cfg inp).filter isFailureNotify = [] :=
    preRunFx_filter_eq_nil cfg inp isFailureNotify rfl (fun _ _ => rfl) (fun _ => rfl)
  have hpre2 : (preRunFx cfg inp).filter isAppendFx = [] :=
    preRunFx_filter_eq_nil cfg inp isAppendFx rfl (fun _ _ => rfl) (fun _ => rfl)
  have hpre3 : (preRunFx cfg inp).filter isTelemetryFx = [] :=
    preRunFx_filter_eq_nil cfg inp isTelemetryFx rfl (fun _ _ => rfl) (fun _ => rfl)
  simp [execute, completionFx, hf, hc, countFx, List.filter_append, hpre1, hpre2, hpre3,
    isFailureNotify, isAppendFx, isTelemetryFx, isTelemetryCommand, isTelemetryException]

/-- Witness for C5: the run resolving false with nothing cancelled shows one
failure notification, appends nothing, and records one telemetry event. -/
theorem execute_failure_notifies_once_no_append_witness :
    countFx isFailureNotify (execute cfgTest inpFailure).1 = 1 ∧
    countFx isAppendFx (execute cfgTest inpFailure).1 = 0 ∧
    countFx isTelemetryFx (execute cfgTest inpFailure).1 = 1 :=
  execute_failure_notifies_once_no_append cfgTest inpFailure rfl rfl

/-- C6: across any sequence of consecutive invocations of the executor, an
invocation whose freshly read clear-output option is true clears the channel
sink before any append of that invocation, and an invocation whose option reads
false performs no clear at all — the option value is per-invocation data, never
cached. -/
theorem execute_clearOnRun_fresh_each_invocation
    (cfg : ExecutorConfig) (inps : List RunInput) (i : Nat)
    (inp : RunInput) (tr : List Effect)
    (hi : inps[i]? = some inp)
    (htr : (executeRuns cfg inps)[i]? = some tr) :
    (inp.clearOnRun = true →
      ∃ pre post, tr = pre ++ Effect.channelClear :: post ∧ ∀ e ∈ pre, isAppendFx e = false) ∧
    (inp.clearOnRun = false → Effect.channelClear ∉ tr) := by
  have htr' : tr = (execute cfg inp).1 := by
    have hmap := List.getElem?_map (fun inp => (execute cfg inp).1) inps i
    rw [executeRuns, hmap, hi] at htr
    exact (Option.some.inj htr).symm
  constructor
  · intro h
    obtain ⟨rest, hp⟩ := preRunFx_of_clear h
    refine ⟨[], rest ++ completionFx cfg inp, ?_, by simp⟩
    rw [htr']
    show preRunFx cfg inp ++ completionFx cfg inp =
      [] ++ Effect.channelClear :: (rest ++ completionFx cfg inp)
    rw [hp]
    simp
  · intro h hm
    rw [htr'] at hm
    rcases List.mem_append.mp hm with h1 | h1
    · exact channelClear_not_mem_preRunFx h h1
    · exact channelClear_not_mem_completionFx cfg inp h1

/-- Witness for C6: in the two-invocation sequence whose option reads true and
then false, the first invocation clears before any append and the second never
clears. -/
theorem execute_clearOnRun_fresh_each_invocation_witness :
    ((inpFailure.clearOnRun = true →
      ∃ pre post, (execute cfgTest inpFailure).1 = pre ++ Effect.channelClear :: post ∧
        ∀ e ∈ pre, isAppendFx e = false) ∧
     (inpFailure.clearOnRun = false → Effect.channelClear ∉ (execute cfgTest inpFailure).1)) ∧
    ((inpSuccess.clearOnRun = true →
      ∃ pre post, (execute cfgTest inpSuccess).1 = pre ++ Effect.channelClear :: post ∧
        ∀ e ∈ pre, isAppendFx e = false) ∧
     (inpSuccess.clearOnRun = false → Effect.channelClear ∉ (execute cfgTest inpSuccess).1)) :=
  ⟨execute_clearOnRun_fresh_each_invocation cfgTest runsTest 0 inpFailure
      (execute cfgTest inpFailure).1 rfl rfl,
   execute_clearOnRun_fresh_each_invocation cfgTest runsTest 1 inpSuccess
      (execute cfgTest inpSuccess).1 rfl rfl⟩

/-- C7: for every run of the executor with the cancellable flag set, the
progress surface is invoked with the cancellable option true and the localized
progress title carrying the display name as argument, and when the cancellation
token fires after the progress display started, exactly one cancellation
warning containing the display name is issued. -/
theorem execute_cancellable_progress_and_single_warning
    (cfg : ExecutorConfig) (inp : RunInput)
    (hb : cfg.cancellable = true)
    (hf : inp.cancelFired = true) :
    Effect.progressShow true (localize1 "progress_notification_text" cfg.displayName) ∈
      (execute cfg inp).1 ∧
    (execute cfg inp).1.filter isCancelWarnFx =
      [Effect.notifyCancelWarning (localize1 "notification_canceled_execution_text" cfg.displayName)] ∧
    containsStr (localize1 "notification_canceled_execution_text" cfg.displayName)
      cfg.displayName := by
  refine ⟨?_, ?_, ?_⟩
  · simp [execute, preRunFx, hb]
  · have hcomp : (completionFx cfg inp).filter isCancelWarnFx = [] :=
      completionFx_filter_eq_nil cfg inp isCancelWarnFx (fun _ => rfl) (fun _ => rfl)
        (fun _ => rfl) (fun _ => rfl) (fun _ _ => rfl)
    cases hcl : inp.clearOnRun <;>
      simp [execute, preRunFx, hb, hf, hcl, List.filter_append, hcomp, isCancelWarnFx]
  · exact ⟨("notification_canceled_execution_text" ++ " ").data, [],
      by simp [localize1, String.data_append]⟩

/-- Witness for C7: the cancellable run whose token fires shows the progress
surface with the right options and exactly one cancellation warning naming the
command. -/
theorem execute_cancellable_progress_and_single_warning_witness :
    Effect.progressShow true
        (localize1 "progress_notification_text" cfgTestCancellable.displayName) ∈
      (execute cfgTestCancellable inpCancelFired).1 ∧
    (execute cfgTestCancellable inpCancelFired).1.filter isCancelWarnFx =
      [Effect.notifyCancelWarning
        (localize1 "notification_canceled_execution_text" cfgTestCancellable.displayName)] ∧
    containsStr
      (localize1 "notification_canceled_execution_text" cfgTestCancellable.displayName)
      cfgTestCancellable.displayName :=
  execute_cancellable_progress_and_single_warning cfgTestCancellable inpCancelFired rfl rfl

/-! ### Claim theorems for the worked-example command -/

/-- C8: in the process-exit handler of the worked-example command, whenever the
buffered process output cannot be parsed into a result, the dedicated localized
parsing-error message and the raw error are appended to the channel, and an
exception telemetry event carrying the raw parse error is sent — the parse
error is never silently swallowed. -/
theorem processExitHandler_parse_error_reported (err : String) :
    CloneEffect.appendLineFx (localize "force_org_clone_result_parsing_error") ∈
      processExitHandler (StdOut.malformed err) ∧
    CloneEffect.appendLineFx err ∈ processExitHandler (StdOut.malformed err) ∧
    CloneEffect.sendExceptionFx "force_org_clone"
        ("Error while parsing org create response " ++ err) ∈
      processExitHandler (StdOut.malformed err) := by
  refine ⟨?_, ?_, ?_⟩ <;> simp [processExitHandler]

/-- C9: in the process-exit handler of the worked-example command, the parsed
record is classified as successful exactly when its nested status field equals
0, in which case the workspace org type is set; otherwise the message of the
error object extracted under the known key is both appended to the channel and
sent as an exception telemetry event. -/
theorem processExitHandler_status_classification
    (r : OrgCreateResult) (m : String)
    (hm : r.errorMessage = some m) :
    (createIsSuccessful r = true ↔ r.status = 0) ∧
    (r.status = 0 →
      CloneEffect.setOrgTypeSourceTracked ∈ processExitHandler (StdOut.parsed r)) ∧
    (r.status ≠ 0 →
      CloneEffect.appendLineFx m ∈ processExitHandler (StdOut.parsed r) ∧
      CloneEffect.sendExceptionFx "force_org_clone" m ∈ processExitHandler (StdOut.parsed r)) := by
  refine ⟨?_, ?_, ?_⟩
  · simp [createIsSuccessful]
  · intro h
    simp [processExitHandler, createIsSuccessful, h]
  · intro h
    constructor <;> simp [processExitHandler, createIsSuccessful, h, hm]

/-- Witness for C9: the record with status 1 and an error message is classified
as unsuccessful and the message is appended and sent as an exception event. -/
theorem processExitHandler_status_classification_witness :
    (createIsSuccessful sampleErrResult = true ↔ sampleErrResult.status = 0) ∧
    (sampleErrResult.status = 0 →
      CloneEffect.setOrgTypeSourceTracked ∈ processExitHandler (StdOut.parsed sampleErrResult)) ∧
    (sampleErrResult.status ≠ 0 →
      CloneEffect.appendLineFx "clone went wrong" ∈
        processExitHandler (StdOut.parsed sampleErrResult) ∧
      CloneEffect.sendExceptionFx "force_org_clone" "clone went wrong" ∈
        processExitHandler (StdOut.parsed sampleErrResult)) :=
  processExitHandler_status_classification sampleErrResult "clone went wrong" rfl

/-! ### Claim theorems for the alias gatherer -/

/-- C10 counterexample: with a root workspace named Foo, answering every prompt
with the empty string yields the continuation payload whose alias is Foo, the
computed default, not the constant vscodeSandbox default the claim states. -/
theorem gather_empty_alias_uses_workspace_default_counterexample :
    gather envFoo = GatherResult.cont ⟨"Foo", "30", "", ""⟩ ∧
    gather envFoo ≠ GatherResult.cont ⟨DEFAULT_ALIAS, "30", "", ""⟩ := by
  constructor <;> decide

/-- C10 (amended): the gatherer returns the cancellation variant exactly when
one of its four sequential input prompts is dismissed; otherwise it returns the
continuation variant in which an empty-string alias is replaced by the computed
default alias (the cleaned workspace folder name when it is a nonempty
alphanumeric-or-space string, else vscodeSandbox), an empty-string wait time is
replaced by the default 30, and the source sandbox and sandbox name are passed
through unchanged. -/
theorem gather_cancel_and_default_substitution (env : GatherEnv) :
    (gather env = GatherResult.cancel ↔
      env.cloneSourceInput = none ∨ env.sandboxNameInput = none ∨
      env.aliasInput = none ∨ env.waitTimeInput = none) ∧
    (∀ c s a w, env.cloneSourceInput = some c → env.sandboxNameInput = some s →
      env.aliasInput = some a → env.waitTimeInput = some w →
      gather env = GatherResult.cont
        { aliasName := if a = "" then defaultAliasOf env else a
          waitTime := if w = "" then DEFAULT_WAIT_TIME_MINS else w
          sourceSandbox := c
          sandboxName := s }) := by
  obtain ⟨ws, c0, s0, a0, w0⟩ := env
  constructor
  · rcases c0 with _ | c <;> rcases s0 with _ | s <;> rcases a0 with _ | a <;>
      rcases w0 with _ | w <;> simp [gather]
  · intro c s a w hc hs ha hw
    replace hc : c0 = some c := hc
    replace hs : s0 = some s := hs
    replace ha : a0 = some a := ha
    replace hw : w0 = some w := hw
    subst hc
    subst hs
    subst ha
    subst hw
    rfl

/-- Witness for C10: with no root workspace and empty alias and wait-time
answers, the continuation payload carries the vscodeSandbox default alias, the
default wait time 30, and the unchanged source and sandbox names. -/
theorem gather_cancel_and_default_substitution_witness :
    gather envNoWs = GatherResult.cont ⟨DEFAULT_ALIAS, DEFAULT_WAIT_TIME_MINS, "mySrc", "sb1"⟩ := by
  have h := (gather_cancel_and_default_substitution envNoWs).2 "mySrc" "sb1" "" "" rfl rfl rfl rfl
  simpa [defaultAliasOf, envNoWs, DEFAULT_ALIAS, DEFAULT_WAIT_TIME_MINS] using h
